import Mathlib

/-!
A shallow embedding of the HSTS core of src/hsts.c: host keys, the in-memory
store (the generic hash table specialised to hsts_cmp_func, modelled as an
association list with unique keys), the match engine, the policy layer, and the
line-oriented persistence layer.  Hosts are lists of characters; the external
is_valid_ip_address collaborator from host.c is passed in as a parameter, and
time(NULL) and the filesystem are passed in explicitly.
-/

/-- ASCII lowercasing of one character, modelling c_tolower. -/
def cLower (c : Char) : Char :=
  if 'A' ≤ c ∧ c ≤ 'Z' then Char.ofNat (c.toNat + 32) else c

/-- Model of xstrdup_lower from utils.c: copy a string, lowercased. -/
def xstrdup_lower (s : List Char) : List Char := s.map cLower

/-- Model of countchars from utils.c: number of occurrences of c in s. -/
def countchars (s : List Char) (c : Char) : Nat := s.count c

/-- struct hsts_kh: the key of the store (hsts.c lines 48-51). -/
structure hsts_kh where
  host : List Char
  explicit_port : Int
deriving DecidableEq

/-- struct hsts_kh_info: the per-entry record (hsts.c lines 53-57). -/
structure hsts_kh_info where
  created : Int
  max_age : Int
  include_subdomains : Bool
deriving DecidableEq

/-- enum hsts_kh_match (hsts.c lines 59-63). -/
inductive hsts_kh_match where
  | NO_MATCH
  | SUPERDOMAIN_MATCH
  | CONGRUENT_MATCH
deriving DecidableEq

/-- The schemes of url.h that hsts.c distinguishes. -/
inductive url_scheme where
  | SCHEME_HTTP
  | SCHEME_HTTPS
  | SCHEME_INVALID
deriving DecidableEq

/-- struct url: the fields that hsts.c reads and writes. -/
structure url where
  scheme : url_scheme
  host : List Char
  port : Int
deriving DecidableEq

/-- struct hsts_store: the hash table contents plus last_mtime.  The hash
table never holds two keys equal under hsts_cmp_func, so an association list
is an exact model of its observable behaviour. -/
structure hsts_store where
  entries : List (hsts_kh × hsts_kh_info)
  last_mtime : Int
deriving DecidableEq

def DEFAULT_HTTP_PORT : Int := 80

def DEFAULT_SSL_PORT : Int := 443

/-- CHECK_EXPLICIT_PORT (hsts.c line 72).  Defined by the source but, in this
iteration of the code, applied by no function below. -/
def CHECK_EXPLICIT_PORT (p1 p2 : Int) : Bool := p1 == 0 || p1 == p2

/-- MAKE_EXPLICIT_PORT (hsts.c lines 73-74). -/
def MAKE_EXPLICIT_PORT (s : url_scheme) (p : Int) : Int :=
  if s = url_scheme.SCHEME_HTTPS then (if p = DEFAULT_SSL_PORT then 0 else p)
  else (if p = DEFAULT_HTTP_PORT then 0 else p)

/-- hsts_is_scheme_valid (hsts.c line 66). -/
def hsts_is_scheme_valid (s : url_scheme) : Bool :=
  decide (s = url_scheme.SCHEME_HTTPS)

/-- hsts_is_host_name_valid (hsts.c line 65): negation of the external
is_valid_ip_address collaborator, which is passed in as the parameter ip. -/
def hsts_is_host_name_valid (ip : List Char → Bool) (host : List Char) : Bool :=
  !(ip host)

/-- hsts_is_host_eligible (hsts.c lines 67-68). -/
def hsts_is_host_eligible (ip : List Char → Bool) (s : url_scheme)
    (host : List Char) : Bool :=
  hsts_is_scheme_valid s && hsts_is_host_name_valid ip host

/-- hsts_cmp_func (hsts.c lines 103-110): key equality used by the table. -/
def hsts_cmp_func (k1 k2 : hsts_kh) : Bool :=
  (k1.host == k2.host) && (k1.explicit_port == k2.explicit_port)

/-- hash_table_get, specialised to hsts_cmp_func.  The C call returns the
value pointer; the matched cell (key and value) is returned here so that the
theorems can speak about the key of the entry that was hit. -/
def hash_table_get (es : List (hsts_kh × hsts_kh_info)) (k : hsts_kh) :
    Option (hsts_kh × hsts_kh_info) :=
  es.find? (fun kv => hsts_cmp_func kv.1 k)

def hash_table_contains (es : List (hsts_kh × hsts_kh_info)) (k : hsts_kh) :
    Bool :=
  (hash_table_get es k).isSome

/-- hash_table_put: replace the value stored under an equal key, else add. -/
def hash_table_put (es : List (hsts_kh × hsts_kh_info)) (k : hsts_kh)
    (v : hsts_kh_info) : List (hsts_kh × hsts_kh_info) :=
  if hash_table_contains es k then
    es.map (fun kv => if hsts_cmp_func kv.1 k then (kv.1, v) else kv)
  else es ++ [(k, v)]

/-- hash_table_remove: whether a cell was removed, and the remaining cells. -/
def hash_table_remove (es : List (hsts_kh × hsts_kh_info)) (k : hsts_kh) :
    Bool × List (hsts_kh × hsts_kh_info) :=
  (es.any (fun kv => hsts_cmp_func kv.1 k),
   es.filter (fun kv => !hsts_cmp_func kv.1 k))

def hash_table_count (es : List (hsts_kh × hsts_kh_info)) : Nat := es.length

/-- In-place mutation through the value pointer obtained from a lookup with
key k, as done by hsts_store_entry and hsts_store_merge. -/
def hash_table_update (es : List (hsts_kh × hsts_kh_info)) (k : hsts_kh)
    (f : hsts_kh_info → hsts_kh_info) : List (hsts_kh × hsts_kh_info) :=
  es.map (fun kv => if hsts_cmp_func kv.1 k then (kv.1, f kv.2) else kv)

/-- k->host += (pos - k->host + 1): drop everything up to and including the
first dot (hsts.c line 144). -/
def dropFirstLabel : List Char → List Char
  | [] => []
  | c :: cs => if c = '.' then cs else dropFirstLabel cs

/-- The guard of the superdomain loop of hsts_find_entry (hsts.c lines
140-142): a dot exists, not at position 0, and there is more than one dot. -/
def superLoopCond (h : List Char) : Bool :=
  h.contains '.' && !(h.head? == some '.') && decide (1 < h.count '.')

/-- The superdomain scan of hsts_find_entry (hsts.c lines 140-148), indexed by
fuel.  Every iteration strips at least one character from the host, so fuel
equal to the length of the host is always enough; callers pass exactly that. -/
def findSuperAux (es : List (hsts_kh × hsts_kh_info)) (ep : Int) :
    Nat → List Char → Option (hsts_kh × hsts_kh_info)
  | 0, _ => none
  | fuel + 1, h =>
    if superLoopCond h then
      let h2 := dropFirstLabel h
      match hash_table_get es ⟨h2, ep⟩ with
      | some kv => some kv
      | none => findSuperAux es ep fuel h2
    else none

/-- hsts_find_entry (hsts.c lines 114-159).  Returns the matched cell (the C
function returns the value pointer; the key of the cell is exposed alongside),
the match type written through match_type, and the kh out parameter.  Note
that the host field of kh is the full lowercased query host: the function
restores org_ptr before COPYPARAM, so the suffix the superdomain loop stopped
at is not what kh carries. -/
def hsts_find_entry (store : hsts_store) (host : List Char)
    (explicit_port : Int) :
    Option (hsts_kh × hsts_kh_info) × hsts_kh_match × hsts_kh :=
  let h := xstrdup_lower host
  let kh : hsts_kh := ⟨h, explicit_port⟩
  match hash_table_get store.entries kh with
  | some kv => (some kv, hsts_kh_match.CONGRUENT_MATCH, kh)
  | none =>
    match findSuperAux store.entries explicit_port h.length h with
    | some kv => (some kv, hsts_kh_match.SUPERDOMAIN_MATCH, kh)
    | none => (none, hsts_kh_match.NO_MATCH, kh)

/-- hsts_new_entry_internal (hsts.c lines 161-205). -/
def hsts_new_entry_internal (ip : List Char → Bool) (store : hsts_store)
    (host : List Char) (port : Int) (created max_age : Int)
    (include_subdomains : Bool)
    (check_validity check_expired check_duplicates : Bool) :
    Bool × hsts_store :=
  let kh : hsts_kh :=
    ⟨xstrdup_lower host, MAKE_EXPLICIT_PORT url_scheme.SCHEME_HTTPS port⟩
  let khi : hsts_kh_info := ⟨created, max_age, include_subdomains⟩
  if check_validity && !(hsts_is_host_name_valid ip host) then (false, store)
  else if check_expired && decide (khi.created + khi.max_age < khi.created) then
    (false, store)
  else if check_duplicates && hash_table_contains store.entries kh then
    (false, store)
  else (true, { store with entries := hash_table_put store.entries kh khi })

/-- hsts_add_entry (hsts.c lines 211-222): now is the value of time(NULL). -/
def hsts_add_entry (ip : List Char → Bool) (now : Int) (store : hsts_store)
    (host : List Char) (port : Int) (max_age : Int)
    (include_subdomains : Bool) : Bool × hsts_store :=
  if now < 0 then (false, store)
  else hsts_new_entry_internal ip store host port now max_age
    include_subdomains false true false

/-- hsts_new_entry (hsts.c lines 225-232). -/
def hsts_new_entry (ip : List Char → Bool) (store : hsts_store)
    (host : List Char) (port : Int) (created max_age : Int)
    (include_subdomains : Bool) : Bool × hsts_store :=
  hsts_new_entry_internal ip store host port created max_age
    include_subdomains true true true

/-- hsts_remove_entry (hsts.c lines 234-239). -/
def hsts_remove_entry (store : hsts_store) (kh : hsts_kh) : hsts_store :=
  { store with entries := (hash_table_remove store.entries kh).2 }

/-- hsts_store_merge (hsts.c lines 241-264). -/
def hsts_store_merge (store : hsts_store) (host : List Char) (port : Int)
    (created max_age : Int) (include_subdomains : Bool) : Bool × hsts_store :=
  let port2 := MAKE_EXPLICIT_PORT url_scheme.SCHEME_HTTPS port
  let r := hsts_find_entry store host port2
  match r.1, r.2.1 with
  | some kv, hsts_kh_match.CONGRUENT_MATCH =>
    if created > kv.2.created then
      let es2 := hash_table_update store.entries r.2.2
        (fun _ => ⟨created, max_age, include_subdomains⟩)
      (true, { store with entries := es2 })
    else (false, store)
  | _, _ => (false, store)

/-- The character classifier of the C locale isspace, as used by sscanf. -/
def c_isspace (c : Char) : Bool :=
  c == ' ' || c == '\t' || c == '\n' || c == '\r' || c == '\x0B' || c == '\x0C'

/-- Model of the %255s conversion of sscanf: skip white space, then read at
most 255 non-white-space characters; the conversion fails when none exist. -/
def scanStr (l : List Char) : Option (List Char × List Char) :=
  let l2 := l.dropWhile c_isspace
  let tok := (l2.takeWhile (fun c => !c_isspace c)).take 255
  if tok.isEmpty then none else some (tok, l2.drop tok.length)

def digitVal (c : Char) : Nat := c.toNat - 48

/-- Model of the %lu conversion of sscanf on the digit syntax this database
uses: skip white space, then read a nonempty run of decimal digits. -/
def scanLU (l : List Char) : Option (Nat × List Char) :=
  let l2 := l.dropWhile c_isspace
  let ds := l2.takeWhile Char.isDigit
  if ds.isEmpty then none
  else some (ds.foldl (fun a c => a * 10 + digitVal c) 0, l2.drop ds.length)

/-- strtol with base 10: skip white space, optional sign, leading digits;
0 when no digits follow. -/
def strtol10 (l : List Char) : Int :=
  let l2 := l.dropWhile c_isspace
  match l2 with
  | '-' :: rest =>
    -(((rest.takeWhile Char.isDigit).foldl (fun a c => a * 10 + digitVal c) 0 : Nat) : Int)
  | '+' :: rest =>
    (((rest.takeWhile Char.isDigit).foldl (fun a c => a * 10 + digitVal c) 0 : Nat) : Int)
  | _ =>
    (((l2.takeWhile Char.isDigit).foldl (fun a c => a * 10 + digitVal c) 0 : Nat) : Int)

/-- strchr (hostname, ':'): the characters after the first colon, or none. -/
def afterColon : List Char → Option (List Char)
  | [] => none
  | c :: cs => if c = ':' then some cs else afterColon cs

/-- %lu stores an unsigned long into a time_t; this is the two-complement
reinterpretation of the scanned value. -/
def toTimeT (n : Nat) : Int :=
  if n < 2 ^ 63 then (n : Int) else (n : Int) - 2 ^ 64

/-- hsts_parse_line (hsts.c lines 266-311).  Returns none when items_read is
not 4; otherwise the lowercased host (the full first field, so a ":port"
suffix stays inside it), the value the function writes through its port
parameter (none when it writes nothing: myport stays 0 without a colon, and
with a colon strtol leaves a non-NULL end pointer so that !tail is false),
the created and max_age fields, and the include_subdomains flag. -/
def hsts_parse_line (line : List Char) :
    Option (List Char × Option Int × Int × Int × Bool) :=
  match scanStr line with
  | none => none
  | some (hostname, r1) =>
    match r1.dropWhile c_isspace with
    | [] => none
    | ch :: r2 =>
      match scanLU r2 with
      | none => none
      | some (cr, r3) =>
        match scanLU r3 with
        | none => none
        | some (ma, _) =>
          let port_st := afterColon hostname
          let myport : Int :=
            match port_st with
            | none => 0
            | some s => strtol10 s
          let tail_is_null : Bool := port_st.isNone
          let portOut : Option Int :=
            if (myport != 0) && tail_is_null then some myport else none
          some (xstrdup_lower hostname, portOut, toTimeT cr, toTimeT ma,
            ch == '1')

/-- One getline iteration of hsts_read_database (hsts.c lines 332-341).  The
Int component threads the port variable of the caller, which hsts_parse_line
may or may not overwrite. -/
def hsts_read_line (ip : List Char → Bool) (merge : Bool)
    (st : hsts_store × Int) (line : List Char) : hsts_store × Int :=
  if line.head? == some '#' then st
  else
    match hsts_parse_line line with
    | none => st
    | some (host, portOut, created, max_age, subs) =>
      let port := portOut.getD st.2
      if (created != 0) && (max_age != 0) then
        ((if merge then (hsts_store_merge st.1 host port created max_age subs).2
          else (hsts_new_entry ip st.1 host port created max_age subs).2),
         port)
      else (st.1, port)

/-- hsts_read_database (hsts.c lines 313-347).  The contents argument is the
list of lines getline yields, or none when fopen fails.  Returns the result
of the C function and the final store. -/
def hsts_read_database (ip : List Char → Bool) (merge : Bool)
    (store : hsts_store) (contents : Option (List (List Char))) :
    Bool × hsts_store :=
  match contents with
  | none => (false, store)
  | some lines => (true, (lines.foldl (hsts_read_line ip merge) (store, 0)).1)

def digitsAux : Nat → Nat → List Char → List Char
  | 0, _, acc => acc
  | fuel + 1, n, acc =>
    if n < 10 then Char.ofNat (48 + n) :: acc
    else digitsAux fuel (n / 10) (Char.ofNat (48 + n % 10) :: acc)

/-- The decimal digits of n. -/
def natDigits (n : Nat) : List Char := digitsAux (n + 1) n []

/-- aprintf "%lu" applied to a time_t. -/
def uluRepr (t : Int) : List Char := natDigits ((t % ((2 : Int) ^ 64)).toNat)

/-- aprintf "%i" applied to the explicit port. -/
def intRepr (p : Int) : List Char :=
  if p < 0 then '-' :: natDigits (-p).toNat else natDigits p.toNat

/-- One record line as written by hsts_store_dump (hsts.c lines 368-406). -/
def dumpEntryLine (kh : hsts_kh) (khi : hsts_kh_info) : List Char :=
  kh.host
    ++ (if kh.explicit_port ≠ 0 then ':' :: intRepr kh.explicit_port else [])
    ++ '\t' :: (if khi.include_subdomains then '1' else '0')
    :: '\t' :: (uluRepr khi.created ++ '\t' :: (uluRepr khi.max_age ++ ['\n']))

/-- The three comment lines hsts_store_dump writes first (lines 363-365). -/
def dumpPreamble : List (List Char) :=
  [("# HSTS 1.0 Known Hosts database for GNU Wget.\n").toList,
   ("# Edit at your own risk.\n").toList,
   ("# <hostname>[:<port>]\t<incl. subdomains>\t<created>\t<max-age>\n").toList]

/-- The observable state of the single database file: whether it exists (and
stat succeeds), whether fopen for reading and for writing succeed, the mtime
stat reports, and the lines getline yields. -/
structure FileState where
  present : Bool
  readable : Bool
  writable : Bool
  mtime : Int
  lines : List (List Char)
deriving DecidableEq

/-- fopen (file, "r") followed by getline. -/
def fileRead (fs : FileState) : Option (List (List Char)) :=
  if fs.present && fs.readable then some fs.lines else none

/-- hsts_store_dump (hsts.c lines 349-410): truncate and rewrite the file. -/
def hsts_store_dump (store : hsts_store) (fs : FileState) : FileState :=
  if fs.writable then
    { fs with
      present := true
      readable := true
      lines := dumpPreamble
        ++ store.entries.map (fun kv => dumpEntryLine kv.1 kv.2) }
  else fs

/-- hsts_store_open (hsts.c lines 532-557). -/
def hsts_store_open (ip : List Char → Bool) (fs : FileState) :
    Option hsts_store :=
  let store : hsts_store := ⟨[], 0⟩
  if fs.present then
    let store1 := { store with last_mtime := fs.mtime }
    let r := hsts_read_database ip false store1 (fileRead fs)
    if r.1 then some r.2 else none
  else some store

/-- hsts_store_save (hsts.c lines 559-576). -/
def hsts_store_save (ip : List Char → Bool) (store : hsts_store)
    (fs : FileState) : hsts_store × FileState :=
  if 0 < hash_table_count store.entries then
    let store2 :=
      if fs.present = true ∧ store.last_mtime ≠ 0 ∧ store.last_mtime < fs.mtime
      then (hsts_read_database ip true store (fileRead fs)).2
      else store
    (store2, hsts_store_dump store2 fs)
  else (store, fs)

/-- hsts_match (hsts.c lines 422-454): now is the value of time(NULL). -/
def hsts_match (now : Int) (store : hsts_store) (u : url) :
    Bool × url × hsts_store :=
  let port := MAKE_EXPLICIT_PORT u.scheme u.port
  let r := hsts_find_entry store u.host port
  match r.1 with
  | none => (false, u, store)
  | some kv =>
    if now ≤ kv.2.created + kv.2.max_age then
      if r.2.1 = hsts_kh_match.CONGRUENT_MATCH
          ∨ (r.2.1 = hsts_kh_match.SUPERDOMAIN_MATCH
             ∧ kv.2.include_subdomains = true) then
        (true,
         { u with
           scheme := url_scheme.SCHEME_HTTPS
           port := if u.port = 80 then 443 else u.port },
         store)
      else (false, u, store)
    else (false, u, hsts_remove_entry store r.2.2)

/-- hsts_store_entry (hsts.c lines 478-530): now is the value of time(NULL),
used both for the created refresh and inside hsts_add_entry. -/
def hsts_store_entry (ip : List Char → Bool) (now : Int) (store : hsts_store)
    (scheme : url_scheme) (host : List Char) (port : Int)
    (max_age : Int) (include_subdomains : Bool) : Bool × hsts_store :=
  if hsts_is_host_eligible ip scheme host then
    let port2 := MAKE_EXPLICIT_PORT scheme port
    let r := hsts_find_entry store host port2
    match r.1, r.2.1 with
    | some _, hsts_kh_match.CONGRUENT_MATCH =>
      if max_age = 0 then (false, hsts_remove_entry store r.2.2)
      else if 0 < max_age then
        let es2 := hash_table_update store.entries r.2.2 (fun old =>
          let old2 := { old with include_subdomains := include_subdomains }
          if old2.max_age ≠ max_age then
            { old2 with
              created := if now ≠ -1 then now else old2.created,
              max_age := max_age }
          else old2)
        (false, { store with entries := es2 })
      else (false, store)
    | none, _ =>
      hsts_add_entry ip now store host port2 max_age include_subdomains
    | some _, hsts_kh_match.SUPERDOMAIN_MATCH =>
      hsts_add_entry ip now store host port2 max_age include_subdomains
    | some _, hsts_kh_match.NO_MATCH => (false, store)
  else (false, store)

/-! Helper lemmas shared by several proofs. -/

theorem findSuperAux_nil (ep : Int) :
    ∀ fuel h, findSuperAux [] ep fuel h = none := by
  intro fuel
  induction fuel with
  | zero => intro h; rfl
  | succ n ih =>
    intro h
    unfold findSuperAux
    by_cases hc : superLoopCond h = true
    · simp only [hc, if_true, hash_table_get, List.find?_nil]
      exact ih (dropFirstLabel h)
    · simp only [Bool.not_eq_true] at hc
      simp [hc]

theorem count_dropFirstLabel (h : List Char) (hmem : '.' ∈ h) :
    (dropFirstLabel h).count '.' = h.count '.' - 1 := by
  induction h with
  | nil => cases hmem
  | cons c cs ih =>
    by_cases hc : c = '.'
    · subst hc
      simp [dropFirstLabel, List.count_cons]
    · have hmem2 : '.' ∈ cs := by
        cases hmem with
        | head => exact absurd rfl hc
        | tail _ hm => exact hm
      simp only [dropFirstLabel, if_neg hc]
      rw [ih hmem2, List.count_cons]
      simp [hc]

theorem findSuperAux_dot (es : List (hsts_kh × hsts_kh_info)) (ep : Int) :
    ∀ fuel h kv, findSuperAux es ep fuel h = some kv → '.' ∈ kv.1.host := by
  intro fuel
  induction fuel with
  | zero => intro h kv hkv; cases hkv
  | succ n ih =>
    intro h kv hkv
    unfold findSuperAux at hkv
    by_cases hc : superLoopCond h = true
    · rw [if_pos hc] at hkv
      have hdots : 1 < h.count '.' := by
        have hx := hc
        unfold superLoopCond at hx
        simp only [Bool.and_eq_true, decide_eq_true_eq] at hx
        exact hx.2
      have hmem : '.' ∈ h := by
        have hpos : 0 < h.count '.' :=
          Nat.lt_of_lt_of_le Nat.zero_lt_one (Nat.le_of_lt hdots)
        exact List.count_pos_iff.mp hpos
      have hmem2 : '.' ∈ dropFirstLabel h := by
        have hcnt := count_dropFirstLabel h hmem
        have hpos : 0 < (dropFirstLabel h).count '.' := by omega
        exact List.count_pos_iff.mp hpos
      cases hget : hash_table_get es ⟨dropFirstLabel h, ep⟩ with
      | some kv2 =>
        simp only [hget] at hkv
        have hget2 : es.find?
            (fun kv => hsts_cmp_func kv.1 ⟨dropFirstLabel h, ep⟩) = some kv2 :=
          hget
        have hfind := List.find?_some hget2
        simp only [hsts_cmp_func, Bool.and_eq_true, beq_iff_eq] at hfind
        cases hkv
        rw [hfind.1]
        exact hmem2
      | none =>
        simp only [hget] at hkv
        exact ih (dropFirstLabel h) kv hkv
    · simp only [Bool.not_eq_true] at hc
      rw [hc] at hkv
      simp at hkv

/-! Claim C1. -/

/-- C1, counterexample: for the store holding ("foo.com", explicit_port 0),
the lookup on host "foo.com" with query explicit port 8080 reports NO_MATCH,
not a congruent match: a stored explicit_port of 0 does not match every query
port, because hsts_cmp_func demands equal ports and CHECK_EXPLICIT_PORT is
never consulted. -/
theorem c1_stored_zero_port_not_wildcard :
    (hsts_find_entry ⟨[(⟨("foo.com").toList, 0⟩, ⟨100, 1000, false⟩)], 0⟩
      ("foo.com").toList 8080).2.1 = hsts_kh_match.NO_MATCH := by decide

/-- C1, amended: the lookup of match and record reports a congruent match
exactly when the store holds a key with the lowercased query host and an
explicit port equal to the canonicalised query port.  A stored explicit_port
of 0 therefore matches precisely the queries whose port canonicalises to 0,
the default port of the scheme, and a non-zero stored port only an equal
query port. -/
theorem c1_congruent_iff_exact_key (store : hsts_store) (host : List Char)
    (ep : Int) :
    (hsts_find_entry store host ep).2.1 = hsts_kh_match.CONGRUENT_MATCH ↔
      hash_table_contains store.entries ⟨xstrdup_lower host, ep⟩ = true := by
  unfold hsts_find_entry hash_table_contains
  cases hget : hash_table_get store.entries ⟨xstrdup_lower host, ep⟩ with
  | some kv => simp [hget]
  | none =>
    simp only [hget, Option.isSome_none]
    cases hsup : findSuperAux store.entries ep
        (xstrdup_lower host).length (xstrdup_lower host) with
    | some kv => simp [hsup]
    | none => simp [hsup]

/-! Claim C2. -/

/-- C2 fails on the code: on the empty store, record over HTTPS of
www.foo.com port 443 with max_age 0 at time 100 creates a brand-new entry
with max_age 0 and returns true, although the spec and the comment of the
function itself say such entries are ignored.  The inserted key is congruent
for the recorded (host, port). -/
theorem c2_max_age_zero_inserts_entry :
    hsts_store_entry (fun _ => false) 100 ⟨[], 0⟩ url_scheme.SCHEME_HTTPS
        ("www.foo.com").toList 443 0 true
      = (true, ⟨[(⟨("www.foo.com").toList, 0⟩, ⟨100, 0, true⟩)], 0⟩) := by
  decide

/-! Claim C3. -/

/-- C3 fails on the code: saving a store whose only entry is
("test.example.com", explicit port 8080) writes the line
test.example.com:8080, but loading it back yields the key
("test.example.com:8080", 0): hsts_parse_line keeps the ":8080" inside the
host and never writes its port parameter, because after strtol the end
pointer is non-NULL, so the !tail condition is always false. -/
theorem c3_saved_port_not_restored_by_load :
    (hsts_store_open (fun _ => false)
        (hsts_store_save (fun _ => false)
          ⟨[(⟨("test.example.com").toList, 8080⟩, ⟨100, 200, false⟩)], 0⟩
          ⟨false, true, true, 0, []⟩).2).map
        (fun st => st.entries.map Prod.fst)
      = some [⟨("test.example.com:8080").toList, 0⟩] := by decide

/-! Claim C4. -/

/-- C4: with a store whose only entry is www.foo.com (any stored port, any
info with include_subdomains set and not yet expired), matching the URL
http scheme, host ww.foo.com, port 80 changes nothing and returns false:
www.foo.com is not reachable from ww.foo.com by stripping whole labels, so
the lookup reports no match at all. -/
theorem c4_no_label_boundary_no_rewrite (ep : Int) (khi : hsts_kh_info)
    (now : Int) (hsub : khi.include_subdomains = true)
    (hfresh : now ≤ khi.created + khi.max_age) :
    hsts_match now ⟨[(⟨("www.foo.com").toList, ep⟩, khi)], 0⟩
        ⟨url_scheme.SCHEME_HTTP, ("ww.foo.com").toList, 80⟩
      = (false, ⟨url_scheme.SCHEME_HTTP, ("ww.foo.com").toList, 80⟩,
         ⟨[(⟨("www.foo.com").toList, ep⟩, khi)], 0⟩) := rfl

/-- Witness for C4 at ep = 0, khi = (created 0, max_age 10, subdomains), and
now = 5. -/
theorem c4_no_label_boundary_no_rewrite_witness :
    (⟨0, 10, true⟩ : hsts_kh_info).include_subdomains = true ∧
    (5 : Int) ≤ (⟨0, 10, true⟩ : hsts_kh_info).created
      + (⟨0, 10, true⟩ : hsts_kh_info).max_age ∧
    hsts_match 5 ⟨[(⟨("www.foo.com").toList, 0⟩, ⟨0, 10, true⟩)], 0⟩
        ⟨url_scheme.SCHEME_HTTP, ("ww.foo.com").toList, 80⟩
      = (false, ⟨url_scheme.SCHEME_HTTP, ("ww.foo.com").toList, 80⟩,
         ⟨[(⟨("www.foo.com").toList, 0⟩, ⟨0, 10, true⟩)], 0⟩) :=
  ⟨rfl, by decide,
   c4_no_label_boundary_no_rewrite 0 ⟨0, 10, true⟩ 5 rfl (by decide)⟩

/-! Claim C5. -/

/-- C5, counterexample: a store holding one entry that was never read from
disk (last_mtime = 0) is saved while the file exists with mtime 3 > 0 and
carries a congruent record with a newer created field.  The claim demands the
merge-load reconciliation, which would rewrite the in-memory entry; the code
skips the merge (the store handed to the dump step is unchanged), because the
condition in hsts_store_save also demands last_mtime different from 0. -/
theorem c5_save_skips_merge_when_last_mtime_zero :
    (hsts_store_save (fun _ => false)
        ⟨[(⟨("foo.com").toList, 0⟩, ⟨10, 5, false⟩)], 0⟩
        ⟨true, true, true, 3, [("foo.com\t0\t20\t5\n").toList]⟩).1
      = ⟨[(⟨("foo.com").toList, 0⟩, ⟨10, 5, false⟩)], 0⟩ ∧
    (hsts_read_database (fun _ => false) true
        ⟨[(⟨("foo.com").toList, 0⟩, ⟨10, 5, false⟩)], 0⟩
        (fileRead ⟨true, true, true, 3, [("foo.com\t0\t20\t5\n").toList]⟩)).2
      ≠ ⟨[(⟨("foo.com").toList, 0⟩, ⟨10, 5, false⟩)], 0⟩ := by decide

/-- C5, amended: for a non-empty store, save runs the merge-load
reconciliation exactly when the file exists AND the store was actually read
from disk before (last_mtime different from 0) AND the current mtime is
strictly newer; it then dumps the merged store, and otherwise dumps the
in-memory entries unchanged. -/
theorem c5_merge_needs_nonzero_last_mtime (ip : List Char → Bool)
    (store : hsts_store) (fs : FileState)
    (hne : 0 < hash_table_count store.entries) :
    hsts_store_save ip store fs =
      (if fs.present = true ∧ store.last_mtime ≠ 0 ∧ store.last_mtime < fs.mtime
       then
        ((hsts_read_database ip true store (fileRead fs)).2,
         hsts_store_dump (hsts_read_database ip true store (fileRead fs)).2 fs)
       else (store, hsts_store_dump store fs)) := by
  simp only [hsts_store_save, if_pos hne]
  by_cases hcond :
      fs.present = true ∧ store.last_mtime ≠ 0 ∧ store.last_mtime < fs.mtime
  · simp only [if_pos hcond]
  · simp only [if_neg hcond]

/-- Witness for C5 at a one-entry store with last_mtime 1 and a file with
mtime 3. -/
theorem c5_merge_needs_nonzero_last_mtime_witness :
    0 < hash_table_count
      (⟨[(⟨("foo.com").toList, 0⟩, ⟨10, 5, false⟩)], 1⟩ : hsts_store).entries ∧
    hsts_store_save (fun _ => false)
        ⟨[(⟨("foo.com").toList, 0⟩, ⟨10, 5, false⟩)], 1⟩
        ⟨true, true, true, 3, [("foo.com\t0\t20\t5\n").toList]⟩
      = (if (⟨true, true, true, 3,
              [("foo.com\t0\t20\t5\n").toList]⟩ : FileState).present = true
            ∧ (⟨[(⟨("foo.com").toList, 0⟩, ⟨10, 5, false⟩)], 1⟩ :
                hsts_store).last_mtime ≠ 0
            ∧ (⟨[(⟨("foo.com").toList, 0⟩, ⟨10, 5, false⟩)], 1⟩ :
                hsts_store).last_mtime
              < (⟨true, true, true, 3,
                  [("foo.com\t0\t20\t5\n").toList]⟩ : FileState).mtime
         then
          ((hsts_read_database (fun _ => false) true
              ⟨[(⟨("foo.com").toList, 0⟩, ⟨10, 5, false⟩)], 1⟩
              (fileRead ⟨true, true, true, 3,
                [("foo.com\t0\t20\t5\n").toList]⟩)).2,
           hsts_store_dump
             (hsts_read_database (fun _ => false) true
               ⟨[(⟨("foo.com").toList, 0⟩, ⟨10, 5, false⟩)], 1⟩
               (fileRead ⟨true, true, true, 3,
                 [("foo.com\t0\t20\t5\n").toList]⟩)).2
             ⟨true, true, true, 3, [("foo.com\t0\t20\t5\n").toList]⟩)
         else
          (⟨[(⟨("foo.com").toList, 0⟩, ⟨10, 5, false⟩)], 1⟩,
           hsts_store_dump ⟨[(⟨("foo.com").toList, 0⟩, ⟨10, 5, false⟩)], 1⟩
             ⟨true, true, true, 3, [("foo.com\t0\t20\t5\n").toList]⟩)) :=
  ⟨by decide,
   c5_merge_needs_nonzero_last_mtime (fun _ => false)
     ⟨[(⟨("foo.com").toList, 0⟩, ⟨10, 5, false⟩)], 1⟩
     ⟨true, true, true, 3, [("foo.com\t0\t20\t5\n").toList]⟩ (by decide)⟩

/-! Claim C6. -/

/-- C6, counterexample: when the file exists but fopen for reading fails,
hsts_store_open aborts and returns NULL, not an empty store. -/
theorem c6_open_unreadable_returns_null :
    hsts_store_open (fun _ => false) ⟨true, false, true, 7, []⟩ = none := by
  decide

/-- C6, amended: open absorbs a missing file into a fresh empty store, but a
file that exists and cannot be opened for reading makes hsts_store_open fail
and return NULL, so this error does propagate to the caller. -/
theorem c6_open_error_behaviour (ip : List Char → Bool) (fs : FileState)
    (hp : fs.present = true) (hr : fs.readable = false) :
    hsts_store_open ip fs = none ∧
      hsts_store_open ip { fs with present := false } = some ⟨[], 0⟩ := by
  constructor
  · simp [hsts_store_open, hsts_read_database, fileRead, hp, hr]
  · simp [hsts_store_open]

/-- Witness for C6 at a present, unreadable file. -/
theorem c6_open_error_behaviour_witness :
    (⟨true, false, true, 7, []⟩ : FileState).present = true ∧
    (⟨true, false, true, 7, []⟩ : FileState).readable = false ∧
    (hsts_store_open (fun _ => false) ⟨true, false, true, 7, []⟩ = none ∧
     hsts_store_open (fun _ => false)
        { (⟨true, false, true, 7, []⟩ : FileState) with present := false }
       = some ⟨[], 0⟩) :=
  ⟨rfl, rfl,
   c6_open_error_behaviour (fun _ => false) ⟨true, false, true, 7, []⟩ rfl rfl⟩

/-! Claim C7. -/

/-- C7, counterexample: recording (HTTPS, foo.com, 443, max_age 100, true) at
time 10 and again, identically, at time 20 leaves the entry with created =
10: the second call does not refresh created to the current time, because
hsts_store_entry touches created only when the incoming max_age differs from
the stored one. -/
theorem c7_second_record_keeps_created :
    ((hsts_store_entry (fun _ => false) 20
        (hsts_store_entry (fun _ => false) 10 ⟨[], 0⟩ url_scheme.SCHEME_HTTPS
          ("foo.com").toList 443 100 true).2
        url_scheme.SCHEME_HTTPS ("foo.com").toList 443 100 true).2.entries
      = [(⟨("foo.com").toList, 0⟩, ⟨10, 100, true⟩)]) ∧
    ¬((hsts_store_entry (fun _ => false) 20
        (hsts_store_entry (fun _ => false) 10 ⟨[], 0⟩ url_scheme.SCHEME_HTTPS
          ("foo.com").toList 443 100 true).2
        url_scheme.SCHEME_HTTPS ("foo.com").toList 443 100 true).2.entries
      = [(⟨("foo.com").toList, 0⟩, ⟨20, 100, true⟩)]) := by decide

theorem make_port_https_idem (p : Int) :
    MAKE_EXPLICIT_PORT url_scheme.SCHEME_HTTPS
        (MAKE_EXPLICIT_PORT url_scheme.SCHEME_HTTPS p)
      = MAKE_EXPLICIT_PORT url_scheme.SCHEME_HTTPS p := by
  unfold MAKE_EXPLICIT_PORT DEFAULT_SSL_PORT
  by_cases hp : p = 443
  · simp [hp]
  · simp [hp]

theorem hsts_find_entry_nil (lm : Int) (h : List Char) (ep : Int) :
    hsts_find_entry ⟨[], lm⟩ h ep
      = (none, hsts_kh_match.NO_MATCH, ⟨xstrdup_lower h, ep⟩) := by
  simp only [hsts_find_entry, hash_table_get, List.find?_nil, findSuperAux_nil]

theorem hsts_find_entry_self (v : hsts_kh_info) (lm : Int) (h : List Char)
    (ep : Int) :
    hsts_find_entry ⟨[(⟨xstrdup_lower h, ep⟩, v)], lm⟩ h ep
      = (some (⟨xstrdup_lower h, ep⟩, v), hsts_kh_match.CONGRUENT_MATCH,
         ⟨xstrdup_lower h, ep⟩) := by
  simp only [hsts_find_entry, hash_table_get, List.find?_cons, hsts_cmp_func,
    beq_self_eq_true, Bool.and_self]

/-- Key equality under hsts_cmp_func is euclidean: two keys equal to a third
are equal to each other. -/
theorem hsts_cmp_func_trans (x y k : hsts_kh)
    (hx : hsts_cmp_func x k = true) (hy : hsts_cmp_func y k = true) :
    hsts_cmp_func x y = true := by
  simp only [hsts_cmp_func, Bool.and_eq_true, beq_iff_eq] at hx hy ⊢
  exact ⟨hx.1.trans hy.1.symm, hx.2.trans hy.2.symm⟩

/-- Updating through a key whose matching values the function fixes changes
nothing. -/
theorem hash_table_update_fix (es : List (hsts_kh × hsts_kh_info))
    (k : hsts_kh) (f : hsts_kh_info → hsts_kh_info) :
    (∀ kv ∈ es, hsts_cmp_func kv.1 k = true → f kv.2 = kv.2) →
    hash_table_update es k f = es := by
  induction es with
  | nil => intro _; rfl
  | cons a es ih =>
    intro hfix
    simp only [hash_table_update, List.map_cons]
    have htl : hash_table_update es k f = es :=
      ih (fun kv hkv hcmp => hfix kv (List.mem_cons_of_mem a hkv) hcmp)
    simp only [hash_table_update] at htl
    rw [htl]
    by_cases hc : hsts_cmp_func a.1 k = true
    · rw [if_pos hc, hfix a (List.mem_cons_self a es) hc]
    · rw [if_neg hc]

/-- A lookup after an update through the same key sees the updated value. -/
theorem hash_table_get_update (es : List (hsts_kh × hsts_kh_info))
    (k : hsts_kh) (f : hsts_kh_info → hsts_kh_info) :
    hash_table_get (hash_table_update es k f) k
      = (hash_table_get es k).map (fun kv => (kv.1, f kv.2)) := by
  induction es with
  | nil => rfl
  | cons a es ih =>
    simp only [hash_table_update, hash_table_get, List.map_cons,
      List.find?_cons] at ih ⊢
    by_cases hc : hsts_cmp_func a.1 k = true
    · simp [hc]
    · simp [hc, ih]

/-- Every value an update leaves behind under the updated key satisfies any
property the update function establishes. -/
theorem hash_table_update_spec (es : List (hsts_kh × hsts_kh_info))
    (k : hsts_kh) (f : hsts_kh_info → hsts_kh_info)
    (P : hsts_kh_info → Prop) (hP : ∀ v, P (f v)) :
    ∀ kv ∈ hash_table_update es k f, hsts_cmp_func kv.1 k = true → P kv.2 := by
  intro kv hkv hcmp
  simp only [hash_table_update, List.mem_map] at hkv
  obtain ⟨a, _, hga⟩ := hkv
  by_cases hc : hsts_cmp_func a.1 k = true
  · rw [if_pos hc] at hga
    cases hga
    exact hP a.2
  · rw [if_neg hc] at hga
    cases hga
    exact absurd hcmp hc

/-- An update through a key does not change how many cells match that key. -/
theorem filter_length_update (es : List (hsts_kh × hsts_kh_info))
    (k : hsts_kh) (f : hsts_kh_info → hsts_kh_info) :
    ((hash_table_update es k f).filter
        (fun kv => hsts_cmp_func kv.1 k)).length
      = (es.filter (fun kv => hsts_cmp_func kv.1 k)).length := by
  induction es with
  | nil => rfl
  | cons a es ih =>
    simp only [hash_table_update, List.map_cons, List.filter_cons] at ih ⊢
    by_cases hc : hsts_cmp_func a.1 k = true
    · simp [hc, ih]
    · simp [hc, ih]

/-- Under the uniqueness invariant of the hash table, at most one cell
matches any key. -/
theorem filter_cmp_le_one (es : List (hsts_kh × hsts_kh_info))
    (k : hsts_kh) :
    es.Pairwise (fun a b => hsts_cmp_func a.1 b.1 = false) →
    (es.filter (fun kv => hsts_cmp_func kv.1 k)).length ≤ 1 := by
  induction es with
  | nil => intro _; simp
  | cons a es ih =>
    intro hpw
    rw [List.pairwise_cons] at hpw
    obtain ⟨ha, hpw2⟩ := hpw
    rw [List.filter_cons]
    by_cases hc : hsts_cmp_func a.1 k = true
    · rw [if_pos hc]
      have hnil : es.filter (fun kv => hsts_cmp_func kv.1 k) = [] := by
        rw [List.filter_eq_nil_iff]
        intro b hb hcb
        have hab := hsts_cmp_func_trans a.1 b.1 k hc hcb
        rw [ha b hb] at hab
        cases hab
      rw [hnil]
      simp
    · rw [if_neg hc]
      exact ih hpw2

/-- A successful lookup means at least one cell matches the key. -/
theorem filter_cmp_pos_of_get (es : List (hsts_kh × hsts_kh_info))
    (k : hsts_kh) (kv : hsts_kh × hsts_kh_info)
    (hget : hash_table_get es k = some kv) :
    0 < (es.filter (fun x => hsts_cmp_func x.1 k)).length := by
  have hget2 : es.find? (fun x => hsts_cmp_func x.1 k) = some kv := hget
  have hmem := List.mem_of_find?_eq_some hget2
  have hpred := List.find?_some hget2
  have hmf : kv ∈ es.filter (fun x => hsts_cmp_func x.1 k) :=
    List.mem_filter.mpr ⟨hmem, hpred⟩
  exact List.length_pos.mpr (List.ne_nil_of_mem hmf)

/-- A lookup in an appended table falls through to the right part when the
left part misses. -/
theorem hash_table_get_append_of_none (es l : List (hsts_kh × hsts_kh_info))
    (k : hsts_kh) :
    hash_table_get es k = none →
    hash_table_get (es ++ l) k = hash_table_get l k := by
  induction es with
  | nil => intro _; rfl
  | cons a es ih =>
    intro hget
    simp only [hash_table_get, List.cons_append, List.find?_cons] at hget ⊢
    by_cases hc : hsts_cmp_func a.1 k = true
    · simp only [hc] at hget
      exact Option.noConfusion hget
    · have hc2 : hsts_cmp_func a.1 k = false := by
        cases hcc : hsts_cmp_func a.1 k
        · rfl
        · exact absurd hcc hc
      simp only [hc2] at hget ⊢
      exact ih hget

/-- hsts_store_entry on an eligible host whose canonical key is absent from
the table appends a fresh entry with the given time and returns true, whether
or not the lookup produced a superdomain match. -/
theorem hsts_store_entry_absent (ip : List Char → Bool) (now : Int)
    (S : hsts_store) (h : List Char) (p m : Int) (s : Bool)
    (hip : ip h = false) (hn : 0 ≤ now) (hm : 0 < m)
    (hget : hash_table_get S.entries
      ⟨xstrdup_lower h, MAKE_EXPLICIT_PORT url_scheme.SCHEME_HTTPS p⟩ = none) :
    hsts_store_entry ip now S url_scheme.SCHEME_HTTPS h p m s
      = (true, { S with entries := S.entries
          ++ [(⟨xstrdup_lower h, MAKE_EXPLICIT_PORT url_scheme.SCHEME_HTTPS p⟩,
               ⟨now, m, s⟩)] }) := by
  have helig : hsts_is_host_eligible ip url_scheme.SCHEME_HTTPS h = true := by
    simp [hsts_is_host_eligible, hsts_is_scheme_valid, hsts_is_host_name_valid,
      hip]
  have hnm : ¬(now + m < now) := by omega
  have hnn : ¬(now < 0) := by omega
  have hcont : hash_table_contains S.entries
      ⟨xstrdup_lower h, MAKE_EXPLICIT_PORT url_scheme.SCHEME_HTTPS p⟩
      = false := by
    simp [hash_table_contains, hget]
  simp only [hsts_store_entry, helig, if_true, hsts_find_entry, hget]
  cases hsup : findSuperAux S.entries
      (MAKE_EXPLICIT_PORT url_scheme.SCHEME_HTTPS p)
      (xstrdup_lower h).length (xstrdup_lower h) with
  | some kv =>
    simp only [hsup, hsts_add_entry, if_neg hnn, hsts_new_entry_internal,
      make_port_https_idem, Bool.false_and, Bool.true_and, if_neg hnm,
      decide_eq_true_eq, if_false, hash_table_put, hcont, Bool.false_eq_true]
  | none =>
    simp only [hsup, hsts_add_entry, if_neg hnn, hsts_new_entry_internal,
      make_port_https_idem, Bool.false_and, Bool.true_and, if_neg hnm,
      decide_eq_true_eq, if_false, hash_table_put, hcont, Bool.false_eq_true]

/-- hsts_store_entry on an eligible host whose canonical key is present in
the table takes the congruent-update branch and returns false. -/
theorem hsts_store_entry_present (ip : List Char → Bool) (now : Int)
    (S : hsts_store) (h : List Char) (p m : Int) (s : Bool)
    (kv : hsts_kh × hsts_kh_info)
    (hip : ip h = false) (hm : 0 < m)
    (hget : hash_table_get S.entries
      ⟨xstrdup_lower h, MAKE_EXPLICIT_PORT url_scheme.SCHEME_HTTPS p⟩
      = some kv) :
    hsts_store_entry ip now S url_scheme.SCHEME_HTTPS h p m s
      = (false, { S with entries := (hash_table_update S.entries
          ⟨xstrdup_lower h, MAKE_EXPLICIT_PORT url_scheme.SCHEME_HTTPS p⟩
          (fun old =>
            let old2 := { old with include_subdomains := s }
            if old2.max_age ≠ m then
              { old2 with
                created := if now ≠ -1 then now else old2.created
                max_age := m }
            else old2)) }) := by
  have helig : hsts_is_host_eligible ip url_scheme.SCHEME_HTTPS h = true := by
    simp [hsts_is_host_eligible, hsts_is_scheme_valid, hsts_is_host_name_valid,
      hip]
  have hm0 : ¬(m = 0) := by omega
  simp only [hsts_store_entry, helig, if_true, hsts_find_entry, hget,
    if_neg hm0, if_pos hm]

/-- hsts_store_entry is a no-op returning false when every cell matching the
canonical key already carries the incoming max_age and include_subdomains and
at least one such cell exists. -/
theorem hsts_store_entry_no_change (ip : List Char → Bool) (now : Int)
    (S : hsts_store) (h : List Char) (p m : Int) (s : Bool)
    (kv : hsts_kh × hsts_kh_info)
    (hip : ip h = false) (hm : 0 < m)
    (hget : hash_table_get S.entries
      ⟨xstrdup_lower h, MAKE_EXPLICIT_PORT url_scheme.SCHEME_HTTPS p⟩
      = some kv)
    (hfix : ∀ kv2 ∈ S.entries,
      hsts_cmp_func kv2.1
        ⟨xstrdup_lower h, MAKE_EXPLICIT_PORT url_scheme.SCHEME_HTTPS p⟩
        = true →
      kv2.2.max_age = m ∧ kv2.2.include_subdomains = s) :
    hsts_store_entry ip now S url_scheme.SCHEME_HTTPS h p m s = (false, S) := by
  rw [hsts_store_entry_present ip now S h p m s kv hip hm hget]
  have hupd : hash_table_update S.entries
      ⟨xstrdup_lower h, MAKE_EXPLICIT_PORT url_scheme.SCHEME_HTTPS p⟩
      (fun old =>
        let old2 := { old with include_subdomains := s }
        if old2.max_age ≠ m then
          { old2 with
            created := if now ≠ -1 then now else old2.created
            max_age := m }
        else old2) = S.entries := by
    apply hash_table_update_fix
    intro kv2 hkv2 hcmp
    obtain ⟨hma, hsub⟩ := hfix kv2 hkv2 hcmp
    simp only [hma]
    rw [← hma, ← hsub]
    simp
  rw [hupd]

/-- C7, amended: for every store whose keys are pairwise distinct under
hsts_cmp_func (the hash table invariant), calling record twice with identical
eligible arguments (HTTPS, h, p, max_age m > 0, s) leaves the second call
returning false and the store exactly as the first call left it — in
particular created is NOT refreshed to the current time, because created is
refreshed only when the incoming max_age differs from the stored one and
after the first call the stored max_age already equals m — and the resulting
store holds exactly one entry congruent to (h, p). -/
theorem c7_record_idempotent_every_store (ip : List Char → Bool)
    (now1 now2 : Int) (S : hsts_store) (h : List Char) (p m : Int) (s : Bool)
    (hip : ip h = false) (hn1 : 0 ≤ now1) (hm : 0 < m)
    (hpw : S.entries.Pairwise (fun a b => hsts_cmp_func a.1 b.1 = false)) :
    hsts_store_entry ip now2
        (hsts_store_entry ip now1 S url_scheme.SCHEME_HTTPS h p m s).2
        url_scheme.SCHEME_HTTPS h p m s
      = (false, (hsts_store_entry ip now1 S url_scheme.SCHEME_HTTPS h p m s).2)
    ∧ (((hsts_store_entry ip now2
          (hsts_store_entry ip now1 S url_scheme.SCHEME_HTTPS h p m s).2
          url_scheme.SCHEME_HTTPS h p m s).2.entries.filter
          (fun kv => hsts_cmp_func kv.1
            ⟨xstrdup_lower h,
             MAKE_EXPLICIT_PORT url_scheme.SCHEME_HTTPS p⟩)).length
        = 1) := by
  cases hget : hash_table_get S.entries
      ⟨xstrdup_lower h, MAKE_EXPLICIT_PORT url_scheme.SCHEME_HTTPS p⟩ with
  | none =>
    have e1 := hsts_store_entry_absent ip now1 S h p m s hip hn1 hm hget
    have hget1 : hash_table_get
        (hsts_store_entry ip now1 S url_scheme.SCHEME_HTTPS h p m s).2.entries
        ⟨xstrdup_lower h, MAKE_EXPLICIT_PORT url_scheme.SCHEME_HTTPS p⟩
        = some (⟨xstrdup_lower h,
            MAKE_EXPLICIT_PORT url_scheme.SCHEME_HTTPS p⟩, ⟨now1, m, s⟩) := by
      rw [e1]
      have happ := hash_table_get_append_of_none S.entries
        [(⟨xstrdup_lower h, MAKE_EXPLICIT_PORT url_scheme.SCHEME_HTTPS p⟩,
          (⟨now1, m, s⟩ : hsts_kh_info))]
        ⟨xstrdup_lower h, MAKE_EXPLICIT_PORT url_scheme.SCHEME_HTTPS p⟩ hget
      rw [show ((false, { S with entries := S.entries
          ++ [(⟨xstrdup_lower h, MAKE_EXPLICIT_PORT url_scheme.SCHEME_HTTPS p⟩,
               (⟨now1, m, s⟩ : hsts_kh_info))] }) : Bool × hsts_store).2.entries
          = S.entries
            ++ [(⟨xstrdup_lower h,
                  MAKE_EXPLICIT_PORT url_scheme.SCHEME_HTTPS p⟩,
                 (⟨now1, m, s⟩ : hsts_kh_info))] from rfl, happ]
      simp [hash_table_get, List.find?_cons, hsts_cmp_func]
    have hpredS : ∀ kv ∈ S.entries,
        ¬(hsts_cmp_func kv.1
          ⟨xstrdup_lower h, MAKE_EXPLICIT_PORT url_scheme.SCHEME_HTTPS p⟩
          = true) := by
      have hget2 : S.entries.find? (fun kv => hsts_cmp_func kv.1
          ⟨xstrdup_lower h, MAKE_EXPLICIT_PORT url_scheme.SCHEME_HTTPS p⟩)
          = none := hget
      exact List.find?_eq_none.mp hget2
    have hfix : ∀ kv ∈ (hsts_store_entry ip now1 S
        url_scheme.SCHEME_HTTPS h p m s).2.entries,
        hsts_cmp_func kv.1
          ⟨xstrdup_lower h, MAKE_EXPLICIT_PORT url_scheme.SCHEME_HTTPS p⟩
          = true →
        kv.2.max_age = m ∧ kv.2.include_subdomains = s := by
      rw [e1]
      intro kv hkv hcmp
      rcases List.mem_append.mp hkv with hin | hin
      · exact absurd hcmp (hpredS kv hin)
      · rcases List.mem_singleton.mp hin with rfl
        exact ⟨rfl, rfl⟩
    have e2 := hsts_store_entry_no_change ip now2
      (hsts_store_entry ip now1 S url_scheme.SCHEME_HTTPS h p m s).2
      h p m s _ hip hm hget1 hfix
    refine ⟨e2, ?_⟩
    rw [e2, e1]
    rw [show ((false, { S with entries := S.entries
        ++ [(⟨xstrdup_lower h, MAKE_EXPLICIT_PORT url_scheme.SCHEME_HTTPS p⟩,
             (⟨now1, m, s⟩ : hsts_kh_info))] }) : Bool × hsts_store).2.entries
        = S.entries
          ++ [(⟨xstrdup_lower h, MAKE_EXPLICIT_PORT url_scheme.SCHEME_HTTPS p⟩,
               (⟨now1, m, s⟩ : hsts_kh_info))] from rfl]
    rw [List.filter_append]
    have hnil : S.entries.filter (fun kv => hsts_cmp_func kv.1
        ⟨xstrdup_lower h, MAKE_EXPLICIT_PORT url_scheme.SCHEME_HTTPS p⟩)
        = [] := by
      rw [List.filter_eq_nil_iff]
      exact hpredS
    rw [hnil]
    simp [hsts_cmp_func]
  | some kv =>
    have e1 := hsts_store_entry_present ip now1 S h p m s kv hip hm hget
    have hget1 : hash_table_get
        (hsts_store_entry ip now1 S url_scheme.SCHEME_HTTPS h p m s).2.entries
        ⟨xstrdup_lower h, MAKE_EXPLICIT_PORT url_scheme.SCHEME_HTTPS p⟩
        = some (kv.1, (fun old =>
            let old2 := { old with include_subdomains := s }
            if old2.max_age ≠ m then
              { old2 with
                created := if now1 ≠ -1 then now1 else old2.created
                max_age := m }
            else old2) kv.2) := by
      rw [e1]
      rw [show ∀ x : List (hsts_kh × hsts_kh_info),
          ((false, { S with entries := x }) : Bool × hsts_store).2.entries = x
          from fun _ => rfl]
      rw [hash_table_get_update, hget]
      rfl
    have hfix : ∀ kv2 ∈ (hsts_store_entry ip now1 S
        url_scheme.SCHEME_HTTPS h p m s).2.entries,
        hsts_cmp_func kv2.1
          ⟨xstrdup_lower h, MAKE_EXPLICIT_PORT url_scheme.SCHEME_HTTPS p⟩
          = true →
        kv2.2.max_age = m ∧ kv2.2.include_subdomains = s := by
      rw [e1]
      rw [show ∀ x : List (hsts_kh × hsts_kh_info),
          ((false, { S with entries := x }) : Bool × hsts_store).2.entries = x
          from fun _ => rfl]
      refine hash_table_update_spec _ _ _
        (fun v => v.max_age = m ∧ v.include_subdomains = s) ?_
      intro v
      by_cases hv : v.max_age ≠ m
      · rw [if_pos hv]
        exact ⟨rfl, rfl⟩
      · rw [if_neg hv]
        constructor
        · simpa using hv
        · rfl
    have e2 := hsts_store_entry_no_change ip now2
      (hsts_store_entry ip now1 S url_scheme.SCHEME_HTTPS h p m s).2
      h p m s _ hip hm hget1 hfix
    refine ⟨e2, ?_⟩
    rw [e2, e1]
    rw [show ∀ x : List (hsts_kh × hsts_kh_info),
        ((false, { S with entries := x }) : Bool × hsts_store).2.entries = x
        from fun _ => rfl]
    rw [filter_length_update]
    have hle := filter_cmp_le_one S.entries
      ⟨xstrdup_lower h, MAKE_EXPLICIT_PORT url_scheme.SCHEME_HTTPS p⟩ hpw
    have hpos := filter_cmp_pos_of_get S.entries
      ⟨xstrdup_lower h, MAKE_EXPLICIT_PORT url_scheme.SCHEME_HTTPS p⟩ kv hget
    omega

/-- Witness for C7 on a store already holding an unrelated entry (x.y, port
7), recording foo.com port 443 max_age 100 at times 10 and 20. -/
theorem c7_record_idempotent_every_store_witness :
    (fun (_ : List Char) => false) ("foo.com").toList = false ∧
    (0 : Int) ≤ 10 ∧ (0 : Int) < 100 ∧
    (⟨[(⟨("x.y").toList, 7⟩, ⟨3, 4, false⟩)], 0⟩ :
      hsts_store).entries.Pairwise
      (fun a b => hsts_cmp_func a.1 b.1 = false) ∧
    (hsts_store_entry (fun _ => false) 20
        (hsts_store_entry (fun _ => false) 10
          ⟨[(⟨("x.y").toList, 7⟩, ⟨3, 4, false⟩)], 0⟩
          url_scheme.SCHEME_HTTPS ("foo.com").toList 443 100 true).2
        url_scheme.SCHEME_HTTPS ("foo.com").toList 443 100 true
      = (false, (hsts_store_entry (fun _ => false) 10
          ⟨[(⟨("x.y").toList, 7⟩, ⟨3, 4, false⟩)], 0⟩
          url_scheme.SCHEME_HTTPS ("foo.com").toList 443 100 true).2)
     ∧ (((hsts_store_entry (fun _ => false) 20
          (hsts_store_entry (fun _ => false) 10
            ⟨[(⟨("x.y").toList, 7⟩, ⟨3, 4, false⟩)], 0⟩
            url_scheme.SCHEME_HTTPS ("foo.com").toList 443 100 true).2
          url_scheme.SCHEME_HTTPS
          ("foo.com").toList 443 100 true).2.entries.filter
          (fun kv => hsts_cmp_func kv.1
            ⟨xstrdup_lower ("foo.com").toList,
             MAKE_EXPLICIT_PORT url_scheme.SCHEME_HTTPS 443⟩)).length
        = 1)) :=
  ⟨rfl, by decide, by decide, by decide,
   c7_record_idempotent_every_store (fun _ => false) 10 20
     ⟨[(⟨("x.y").toList, 7⟩, ⟨3, 4, false⟩)], 0⟩ ("foo.com").toList 443 100
     true rfl (by decide) (by decide) (by decide)⟩

/-! Claim C8. -/

/-- C8 fails on the code: the store holds www.foo.com (include_subdomains,
created 0, max_age 10), which is expired at time 100.  Matching
http://bar.www.foo.com:80 finds it as a superdomain match and takes the
expiry branch, yet the store still contains the expired entry afterwards:
hsts_remove_entry is called with the kh out parameter, whose host is the full
query host bar.www.foo.com (restored before COPYPARAM and already freed), a
key that is not in the table, so the removal removes nothing.  The URL is
unchanged and false is returned, as the claim says, but the removal does not
happen. -/
theorem c8_expired_superdomain_not_removed :
    hsts_match 100 ⟨[(⟨("www.foo.com").toList, 0⟩, ⟨0, 10, true⟩)], 0⟩
        ⟨url_scheme.SCHEME_HTTP, ("bar.www.foo.com").toList, 80⟩
      = (false, ⟨url_scheme.SCHEME_HTTP, ("bar.www.foo.com").toList, 80⟩,
         ⟨[(⟨("www.foo.com").toList, 0⟩, ⟨0, 10, true⟩)], 0⟩) := by decide

/-! Claim C9. -/

/-- C9: a line that parses successfully as four fields but carries
created = 0 or max_age = 0 contributes nothing: the reading loop leaves the
store untouched, both at load (merge = false) and at merge-load
(merge = true). -/
theorem c9_zero_created_or_max_age_skipped (ip : List Char → Bool)
    (merge : Bool) (st : hsts_store × Int) (line : List Char)
    (host : List Char) (portOut : Option Int) (created max_age : Int)
    (subs : Bool)
    (hparse : hsts_parse_line line
      = some (host, portOut, created, max_age, subs))
    (hzero : created = 0 ∨ max_age = 0) :
    (hsts_read_line ip merge st line).1 = st.1 := by
  unfold hsts_read_line
  by_cases hcomment : (line.head? == some '#') = true
  · rw [if_pos hcomment]
  · rw [if_neg hcomment, hparse]
    rcases hzero with hz | hz <;> simp [hz]

/-- Witness for C9 on the line "foo.com TAB 1 TAB 0 TAB 55" read into a
one-entry store. -/
theorem c9_zero_created_or_max_age_skipped_witness :
    hsts_parse_line ("foo.com\t1\t0\t55\n").toList
      = some (("foo.com").toList, none, 0, 55, true) ∧
    ((0 : Int) = 0 ∨ (55 : Int) = 0) ∧
    (hsts_read_line (fun _ => false) false
      (⟨[(⟨("a.b").toList, 0⟩, ⟨1, 2, false⟩)], 0⟩, 0)
      ("foo.com\t1\t0\t55\n").toList).1
      = (⟨[(⟨("a.b").toList, 0⟩, ⟨1, 2, false⟩)], 0⟩ : hsts_store) :=
  ⟨by decide, Or.inl rfl,
   c9_zero_created_or_max_age_skipped (fun _ => false) false
     (⟨[(⟨("a.b").toList, 0⟩, ⟨1, 2, false⟩)], 0⟩, 0)
     ("foo.com\t1\t0\t55\n").toList ("foo.com").toList none 0 55 true
     (by decide) (Or.inl rfl)⟩

/-! Claim C10. -/

/-- C10: the lookup never reports a SUPERDOMAIN_MATCH against a stored entry
whose host has no dot: whenever hsts_find_entry reports SUPERDOMAIN_MATCH,
the key of the cell it matched contains a dot, because the loop only probes
hosts obtained by stripping the leading label from a host that still had more
than one dot. -/
theorem c10_superdomain_needs_dot (store : hsts_store) (host : List Char)
    (ep : Int) (kv : hsts_kh × hsts_kh_info)
    (hmt : (hsts_find_entry store host ep).2.1
      = hsts_kh_match.SUPERDOMAIN_MATCH)
    (hkv : (hsts_find_entry store host ep).1 = some kv) :
    '.' ∈ kv.1.host := by
  unfold hsts_find_entry at hmt hkv
  cases hget : hash_table_get store.entries ⟨xstrdup_lower host, ep⟩ with
  | some kv0 =>
    simp only [hget] at hmt
    cases hmt
  | none =>
    simp only [hget] at hmt hkv
    cases hsup : findSuperAux store.entries ep
        (xstrdup_lower host).length (xstrdup_lower host) with
    | none =>
      simp only [hsup] at hmt
      cases hmt
    | some kv1 =>
      simp only [hsup, Option.some.injEq] at hkv
      subst hkv
      exact findSuperAux_dot store.entries ep
        (xstrdup_lower host).length (xstrdup_lower host) kv1 hsup

/-- Witness for C10: the store holds foo.com and the query a.foo.com yields a
superdomain match whose stored host foo.com contains a dot. -/
theorem c10_superdomain_needs_dot_witness :
    (hsts_find_entry ⟨[(⟨("foo.com").toList, 0⟩, ⟨1, 2, false⟩)], 0⟩
      ("a.foo.com").toList 0).2.1 = hsts_kh_match.SUPERDOMAIN_MATCH ∧
    (hsts_find_entry ⟨[(⟨("foo.com").toList, 0⟩, ⟨1, 2, false⟩)], 0⟩
      ("a.foo.com").toList 0).1 = some (⟨("foo.com").toList, 0⟩, ⟨1, 2, false⟩) ∧
    '.' ∈ (("foo.com").toList) :=
  ⟨by decide, by decide,
   c10_superdomain_needs_dot ⟨[(⟨("foo.com").toList, 0⟩, ⟨1, 2, false⟩)], 0⟩
     ("a.foo.com").toList 0 (⟨("foo.com").toList, 0⟩, ⟨1, 2, false⟩)
     (by decide) (by decide)⟩
